import Mathlib

/-!
Verification of the cyclone-community review bot core: event filtering,
size gating, repository-config resolution, prompt substitution, and the
Claude-response parser.  Go strings are modelled as `List Char`; the Go
standard-library operations the code uses (`strings.Index`,
`strings.LastIndex`, `strings.Split`, `strings.SplitN`,
`strings.TrimSpace`, `strings.ReplaceAll`, `strconv.Atoi`) are embedded
below.  A Go slice expression `s[a:b]` with `a > b` panics at runtime;
the one place in the source where that can happen is modelled with
`Except Unit`, error standing for the panic.
-/

/-- Go strings, modelled as lists of characters. -/
abbrev Str := List Char

/-- `strings.Index s sub`: index of the first occurrence of `sub` in `s`,
`none` for Go's `-1`. -/
def strIndex : Str → Str → Option Nat
  | [], p => if p.isPrefixOf ([] : Str) then some 0 else none
  | a :: rest, p =>
    if p.isPrefixOf (a :: rest) then some 0
    else (strIndex rest p).map (fun n => n + 1)

/-- `strings.LastIndex s sub`: index of the last occurrence of `sub` in `s`. -/
def strLastIndex : Str → Str → Option Nat
  | [], p => if p.isPrefixOf ([] : Str) then some 0 else none
  | a :: rest, p =>
    match strLastIndex rest p with
    | some n => some (n + 1)
    | none => if p.isPrefixOf (a :: rest) then some 0 else none

/-- `strings.Contains s sub`. -/
def containsStr (s sub : Str) : Bool := (strIndex s sub).isSome

/-- Fuel-driven worker for `strings.Split` on a non-empty separator
`c :: cs`.  The fuel only has to exceed the length of the string, which
the wrapper `splitStrM` guarantees, so the `0` case is never reached. -/
def splitStrGo (c : Char) (cs : Str) : Nat → Str → List Str
  | 0, s => [s]
  | n + 1, s =>
    match strIndex s (c :: cs) with
    | none => [s]
    | some i => s.take i :: splitStrGo c cs n (s.drop (i + cs.length + 1))

/-- `strings.Split s sep` for a non-empty `sep` (the only way the source
calls it). -/
def splitStrM (sep : Str) (s : Str) : List Str :=
  match sep with
  | [] => [s]
  | c :: cs => splitStrGo c cs (s.length + 1) s

/-- `strings.SplitN s sep n` for `n ≥ 0` and non-empty separator
`c :: cs`: at most `n` pieces, the last one the unsplit remainder. -/
def splitNStr (c : Char) (cs : Str) : Nat → Str → List Str
  | 0, _ => []
  | 1, s => [s]
  | n + 2, s =>
    match strIndex s (c :: cs) with
    | none => [s]
    | some i => s.take i :: splitNStr c cs (n + 1) (s.drop (i + cs.length + 1))

/-- The whitespace predicate of `unicode.IsSpace`, restricted to the
Latin-1 characters (the claims never involve the higher code points of
category Z). -/
def goIsSpace (ch : Char) : Bool :=
  ch == ' ' || ch == '\t' || ch == '\n' || ch == '\x0b' ||
  ch == '\x0c' || ch == '\r' || ch == '\x85' || ch == '\xa0'

/-- `strings.TrimSpace`. -/
def trimSpace (s : Str) : Str :=
  ((s.dropWhile goIsSpace).reverse.dropWhile goIsSpace).reverse

/-- Decimal digit accumulator used by `atoi?`. -/
def digitsValGo : Str → Nat → Option Nat
  | [], acc => some acc
  | ch :: rest, acc =>
    if ch.isDigit then digitsValGo rest (acc * 10 + (ch.toNat - 48)) else none

/-- Largest Go `int` (64-bit) value; `strconv.Atoi` fails beyond it. -/
def maxInt64 : Nat := 9223372036854775807

/-- `strconv.Atoi`: optional sign, decimal digits, 64-bit range check;
`none` for Go's error return. -/
def atoi? (s : Str) : Option Int :=
  match s with
  | [] => none
  | '+' :: ds =>
    if ds = [] then none
    else (digitsValGo ds 0).bind fun n =>
      if n ≤ maxInt64 then some (n : Int) else none
  | '-' :: ds =>
    if ds = [] then none
    else (digitsValGo ds 0).bind fun n =>
      if n ≤ maxInt64 + 1 then some (-(n : Int)) else none
  | ds =>
    (digitsValGo ds 0).bind fun n =>
      if n ≤ maxInt64 then some (n : Int) else none

/-- `fmt.Sprintf` `%d` rendering of a Go `int`. -/
def intToStr (i : Int) : Str :=
  if i < 0 then '-' :: Nat.toDigits 10 (-i).toNat else Nat.toDigits 10 i.toNat

/-- Fuel-driven worker for `strings.ReplaceAll` with non-empty pattern
`c :: cs`: replaces leftmost non-overlapping occurrences, never
rescanning the inserted text.  The wrapper supplies enough fuel that the
`0` case is never reached. -/
def replaceAllGo (c : Char) (cs v : Str) : Nat → Str → Str
  | 0, s => s
  | _ + 1, [] => []
  | n + 1, a :: rest =>
    if (c :: cs).isPrefixOf (a :: rest) then
      v ++ replaceAllGo c cs v n (rest.drop cs.length)
    else
      a :: replaceAllGo c cs v n rest

/-- `strings.ReplaceAll s old new` for non-empty `old` (the only way the
source calls it). -/
def replaceAllStr (old v s : Str) : Str :=
  match old with
  | [] => s
  | c :: cs => replaceAllGo c cs v (s.length + 1) s

/-- `true` when `u` disagrees with `t` at some position inside both, so
that `t` can be a prefix of no extension of `u`. -/
def tailMismatch (t u : Str) : Bool :=
  (List.range (min t.length u.length)).any fun k => t[k]? != u[k]?

/-! ### Response-parser data model and markers (internal/review/parser.go) -/

/-- A line-anchored review comment (`review.ReviewComment`). -/
structure ReviewComment where
  Path : Str
  Line : Int
  Side : Str
  Body : Str
deriving DecidableEq, Repr

/-- The parsed review (`review.ReviewResult`). -/
structure ReviewResult where
  Summary : Str
  Comments : List ReviewComment
deriving DecidableEq, Repr

/-- The `$$` delimiter. -/
def dollarDelim : Str := "$$".data

/-- The `SUMMARY:` marker. -/
def summaryMarker : Str := "SUMMARY:".data

/-- The `POEM:` marker. -/
def poemMarker : Str := "POEM:".data

/-- The `PR_COMMENT:` marker. -/
def prCommentMarker : Str := "PR_COMMENT:".data

/-- Branding header prepended to every summary. -/
def brandingHeader : Str := "## 🌪️ Cyclone AI Code Review\n\n".data

/-- Separator and sub-heading inserted before a non-empty poem. -/
def poemHeading : Str :=
  "\n\n---\n\n**And now, a little poem about your changes 🌪️✨**\n".data

/-- `side` of every produced comment. -/
def sideRight : Str := "RIGHT".data

/-- The `"\n\n"` between category tail and comment content. -/
def bodySep : Str := "\n\n".data

/-- `extractSection` from parser.go: content between the first `$$` at or
after the first occurrence of `sectionHeader` and the next `$$` after it,
trimmed; empty string when the marker or either delimiter is absent. -/
def extractSection (text sectionHeader : Str) : Str :=
  match strIndex text sectionHeader with
  | none => []
  | some startIndex =>
    match strIndex (text.drop startIndex) dollarDelim with
    | none => []
    | some d0 =>
      match strIndex (text.drop (d0 + startIndex + 2)) dollarDelim with
      | none => []
      | some e0 => trimSpace ((text.drop (d0 + startIndex + 2)).take e0)

/-- `parsePRCommentBlock` from parser.go.  `Except.error ()` models the
Go slice panic on `block[startDelim+2 : endDelim]` when the first and
last `$$` occurrences overlap (`endDelim = startDelim + 1`); `ok none`
models the `nil` return for a discarded fragment. -/
def parsePRCommentBlock (block : Str) : Except Unit (Option ReviewComment) :=
  match strIndex block dollarDelim with
  | none => .ok none
  | some startDelim =>
    match strLastIndex block dollarDelim with
    | none => .ok none
    | some endDelim =>
      if endDelim ≤ startDelim then .ok none
      else if startDelim + 2 ≤ endDelim then
        let content := trimSpace ((block.drop (startDelim + 2)).take (endDelim - (startDelim + 2)))
        match splitNStr ':' [] 3 (trimSpace (block.take startDelim)) with
        | p0 :: p1 :: p2 :: _ =>
          match atoi? (trimSpace p1) with
          | none => .ok none
          | some lineNum =>
            .ok (some ⟨trimSpace p0, lineNum, sideRight, trimSpace p2 ++ bodySep ++ content⟩)
        | _ => .ok none
      else .error ()

/-- The comment-collection loop of `parseClaudeResponse`: fragments in
order, `nil` results skipped, a panic aborting everything. -/
def collectComments : List Str → Except Unit (List ReviewComment)
  | [] => .ok []
  | b :: bs =>
    match parsePRCommentBlock b with
    | .error e => .error e
    | .ok none => collectComments bs
    | .ok (some c) =>
      match collectComments bs with
      | .error e => .error e
      | .ok rest => .ok (c :: rest)

/-- `parseClaudeResponse` from parser.go (the unused `diff` argument is
dropped). -/
def parseClaudeResponse (claudeText : Str) : Except Unit ReviewResult :=
  let summary := extractSection claudeText summaryMarker
  let poem := extractSection claudeText poemMarker
  match collectComments ((splitStrM prCommentMarker claudeText).drop 1) with
  | .error e => .error e
  | .ok comments =>
    let finalSummary := if poem ≠ [] then summary ++ poemHeading ++ poem else summary
    .ok ⟨brandingHeader ++ finalSummary, comments⟩

/-! ### Size gate (internal/bot/cyclone.go, internal/config/types.go) -/

/-- Hard limit on changed files. -/
def MAX_FILES_FOR_REVIEW : Int := 25

/-- Hard limit on added lines. -/
def MAX_ADDITIONS_FOR_REVIEW : Int := 800

/-- Hard limit on total changes. -/
def MAX_TOTAL_CHANGES : Int := 1200

/-- Warning threshold on changed files. -/
def WARN_FILES_THRESHOLD : Int := 20

/-- Warning threshold on added lines. -/
def WARN_ADDITIONS_THRESHOLD : Int := 400

/-- `review.PRSizeCheck`. -/
structure PRSizeCheck where
  ShouldReview : Bool
  WarningMessage : Str
  SkipMessage : Str
deriving DecidableEq, Repr

/-- Skip message for too many files (first Sprintf in `checkPRSize`). -/
def filesSkipMessage (files : Int) : Str :=
  "## 🌪️ Cyclone Notice\n\n**PR Too Large for Automated Review**\n\nThis PR modifies **".data ++
  intToStr files ++
  " files**, which exceeds our limit of ".data ++
  intToStr MAX_FILES_FOR_REVIEW ++
  " files for automated review.\n\n**Why we skip large PRs:**\n- 🎯 **Review Quality**: Large PRs are harder to review thoroughly\n- 🧠 **Cognitive Load**: Smaller PRs are easier for humans to understand\n- 🐛 **Bug Detection**: Issues are easier to spot in focused changes\n- 🚀 **Faster Iteration**: Smaller PRs get merged faster\n\n**Suggestions:**\n- Consider breaking this into smaller, focused PRs\n- Each PR should ideally change < 15 files and < 400 lines\n- Group related changes together (e.g., \"Add user authentication\", \"Update API endpoints\")\n\n*Happy to review once split into smaller chunks!* 🌪️".data

/-- Skip message for too many added lines (second Sprintf in `checkPRSize`). -/
def additionsSkipMessage (additions : Int) : Str :=
  "## 🌪️ Cyclone Notice\n\n**PR Too Large for Automated Review**\n\nThis PR adds **".data ++
  intToStr additions ++
  " lines**, which exceeds our limit of ".data ++
  intToStr MAX_ADDITIONS_FOR_REVIEW ++
  " lines for automated review.\n\n**Large PRs are challenging because:**\n- 🔍 **Review Thoroughness**: Hard to catch all issues in large changes\n- ⏱️ **Review Time**: Takes much longer to review properly  \n- 🤔 **Context Switching**: Difficult to keep all changes in mind\n- 🔄 **Merge Conflicts**: Larger PRs are more likely to conflict\n\n**Best Practices:**\n- Aim for PRs with < 400 lines of additions\n- Split features into logical, reviewable chunks\n- Consider feature flags for large features\n\n*Ready to provide detailed feedback on smaller PRs!* 🌪️".data

/-- Skip message for too many total changes (third Sprintf in `checkPRSize`). -/
def totalSkipMessage (totalChanges additions deletions : Int) : Str :=
  "## 🌪️ Cyclone Notice\n\n**PR Too Large for Automated Review**\n\nThis PR has **".data ++
  intToStr totalChanges ++
  " total changes** (+".data ++
  intToStr additions ++
  ", -".data ++
  intToStr deletions ++
  "), exceeding our limit of ".data ++
  intToStr MAX_TOTAL_CHANGES ++
  " changes.\n\n**Recommendation**: Break this into smaller, focused PRs for better review quality and faster merge times.\n\n*Each PR should tell a focused story about one specific change.* 🌪️".data

/-- Files warning line. -/
def filesWarnLine (files : Int) : Str :=
  "📁 **".data ++ intToStr files ++ " files changed** (consider < ".data ++
  intToStr WARN_FILES_THRESHOLD ++ ")".data

/-- Additions warning line. -/
def additionsWarnLine (additions : Int) : Str :=
  "📈 **".data ++ intToStr additions ++ " lines added** (consider < ".data ++
  intToStr WARN_ADDITIONS_THRESHOLD ++ ")".data

/-- Warning block when exactly one warning triggered: the Sprintf pair at
the end of `checkPRSize`, the inner `Sprintf("%s\n", warnings[0])`
leaving a third newline after the warning line. -/
def oneWarnBlock (w : Str) : Str :=
  "**⚠️ Large PR Warning:**\n".data ++ w ++
  "\n\n\n*Smaller PRs are easier to review thoroughly and merge faster.*\n\n---".data

/-- Warning block when both warnings triggered. -/
def twoWarnBlock (w1 w2 : Str) : Str :=
  "**⚠️ Large PR Warning:**\n".data ++ w1 ++ "\n".data ++ w2 ++
  "\n\n*Smaller PRs are easier to review thoroughly and merge faster.*\n\n---".data

/-- The warning-assembly tail of `checkPRSize`. -/
def warningMessageOf (warnings : List Str) : Str :=
  match warnings with
  | [] => []
  | [w] => oneWarnBlock w
  | w1 :: w2 :: _ => twoWarnBlock w1 w2

/-- `checkPRSize` from cyclone.go, on the three counters read from the
pull request. -/
def checkPRSize (files additions deletions : Int) : PRSizeCheck :=
  let totalChanges := additions + deletions
  if files > MAX_FILES_FOR_REVIEW then
    ⟨false, [], filesSkipMessage files⟩
  else if additions > MAX_ADDITIONS_FOR_REVIEW then
    ⟨false, [], additionsSkipMessage additions⟩
  else if totalChanges > MAX_TOTAL_CHANGES then
    ⟨false, [], totalSkipMessage totalChanges additions deletions⟩
  else
    let warnings :=
      (if files > WARN_FILES_THRESHOLD then [filesWarnLine files] else []) ++
      (if additions > WARN_ADDITIONS_THRESHOLD then [additionsWarnLine additions] else [])
    ⟨true, warningMessageOf warnings, []⟩

/-! ### Event filter (internal/bot/webhook.go) -/

/-- Action `"opened"`. -/
def actionOpened : Str := "opened".data

/-- Action `"ready_for_review"`. -/
def actionReady : Str := "ready_for_review".data

/-- Action `"synchronize"`. -/
def actionSynchronize : Str := "synchronize".data

/-- `shouldTriggerReview` from webhook.go: draft PRs are never reviewed;
otherwise the action switch. -/
def shouldTriggerReview (action : Str) (isDraft : Bool) : Bool :=
  if isDraft then false
  else if action = actionOpened then true
  else if action = actionReady then true
  else if action = actionSynchronize then false
  else false

/-! ### Repository configuration (internal/config/config.go, types.go,
internal/bot/cyclone.go) -/

/-- `config.RepositoryConfig` (precision is a string-typed enum). -/
structure RepositoryConfig where
  Name : Str
  Precision : Str
  CustomPrompt : Str
deriving DecidableEq, Repr

/-- `config.OrganizationConfig`. -/
structure OrganizationConfig where
  Name : Str
  Repositories : List RepositoryConfig
deriving DecidableEq, Repr

/-- `config.ReviewConfig`. -/
structure ReviewConfig where
  Organizations : List OrganizationConfig
deriving DecidableEq, Repr

/-- `config.PrecisionMedium`. -/
def precisionMedium : Str := "medium".data

/-- Wildcard repository name `"*"`. -/
def wildcardStar : Str := "*".data

/-- Wildcard repository name `"default"`. -/
def wildcardDefault : Str := "default".data

/-- The first inner loop of `GetRepositoryConfig`: first entry whose name
equals `repoName`. -/
def findRepoByName : List RepositoryConfig → Str → Option RepositoryConfig
  | [], _ => none
  | r :: rest, n => if r.Name = n then some r else findRepoByName rest n

/-- The second inner loop of `GetRepositoryConfig`: first entry named
`"*"` or `"default"`. -/
def findWildcardRepo : List RepositoryConfig → Option RepositoryConfig
  | [] => none
  | r :: rest =>
    if r.Name = wildcardStar ∨ r.Name = wildcardDefault then some r
    else findWildcardRepo rest

/-- What one matching organization yields: exact entry first, wildcard
otherwise. -/
def orgLookup (org : OrganizationConfig) (repoName : Str) : Option RepositoryConfig :=
  match findRepoByName org.Repositories repoName with
  | some r => some r
  | none => findWildcardRepo org.Repositories

/-- The outer loop of `GetRepositoryConfig`: a matching organization that
yields nothing falls through to the next organization. -/
def getRepoConfigOrgs (orgs : List OrganizationConfig) (owner repoName : Str) :
    Option RepositoryConfig :=
  match orgs with
  | [] => none
  | org :: rest =>
    if org.Name = owner then
      match findRepoByName org.Repositories repoName with
      | some r => some r
      | none =>
        match findWildcardRepo org.Repositories with
        | some r => some r
        | none => getRepoConfigOrgs rest owner repoName
    else getRepoConfigOrgs rest owner repoName

/-- `(*ReviewConfig).GetRepositoryConfig` from config.go. -/
def GetRepositoryConfig (rc : ReviewConfig) (owner repoName : Str) :
    Option RepositoryConfig :=
  getRepoConfigOrgs rc.Organizations owner repoName

/-- The configuration `ProcessPullRequest` (cyclone.go) actually uses: on
`nil` it substitutes `{Name: repoName, Precision: medium, CustomPrompt: ""}`
and proceeds. -/
def effectiveRepoConfig (rc : ReviewConfig) (owner repoName : Str) : RepositoryConfig :=
  match GetRepositoryConfig rc owner repoName with
  | some c => c
  | none => ⟨repoName, precisionMedium, []⟩

/-! ### Prompt substitution (internal/review/ai.go) -/

/-- `review.PromptData`. -/
structure PromptData where
  Title : Str
  Body : Str
  Precision : Str
  Diff : Str
  CustomPrompt : Str
deriving DecidableEq, Repr

/-- Placeholder token for the title. -/
def tokTitle : Str := "\x7b\x7b.Title\x7d\x7d".data

/-- Placeholder token for the body. -/
def tokBody : Str := "\x7b\x7b.Body\x7d\x7d".data

/-- Placeholder token for the precision guidance. -/
def tokPrecision : Str := "\x7b\x7b.Precision\x7d\x7d".data

/-- Placeholder token for the diff. -/
def tokDiff : Str := "\x7b\x7b.Diff\x7d\x7d".data

/-- Placeholder token for the custom prompt. -/
def tokCustomPrompt : Str := "\x7b\x7b.CustomPrompt\x7d\x7d".data

/-- The five placeholder tokens, in the order `substitutePromptVariables`
replaces them. -/
def tok : Fin 5 → Str
  | 0 => tokTitle
  | 1 => tokBody
  | 2 => tokPrecision
  | 3 => tokDiff
  | 4 => tokCustomPrompt

/-- The value substituted for each token. -/
def tokValue (d : PromptData) : Fin 5 → Str
  | 0 => d.Title
  | 1 => d.Body
  | 2 => d.Precision
  | 3 => d.Diff
  | 4 => d.CustomPrompt

/-- `substitutePromptVariables` from ai.go: five `strings.ReplaceAll`
calls, in the fixed order title, body, precision, diff, custom prompt. -/
def substitutePromptVariables (template : Str) (d : PromptData) : Str :=
  replaceAllStr tokCustomPrompt d.CustomPrompt
    (replaceAllStr tokDiff d.Diff
      (replaceAllStr tokPrecision d.Precision
        (replaceAllStr tokBody d.Body
          (replaceAllStr tokTitle d.Title template))))

/-! ### Well-formed template model, for the amended round-trip claim.
A template is a list of segments, each either a literal or one of the
five placeholder slots. -/

/-- One template segment. -/
abbrev Segment := Str ⊕ Fin 5

/-- A template: literal text interleaved with placeholder slots. -/
abbrev Template := List Segment

/-- A string with no `\x7b` character (every placeholder token starts
with two of them). -/
def noLBrace (s : Str) : Prop := '\x7b' ∉ s

instance (s : Str) : Decidable (noLBrace s) := by
  unfold noLBrace; infer_instance

/-- A segment is well formed when a literal contains no `\x7b`. -/
def segWF : Segment → Prop
  | .inl l => noLBrace l
  | .inr _ => True

instance (seg : Segment) : Decidable (segWF seg) := by
  cases seg <;> simp only [segWF] <;> infer_instance

/-- Template well-formedness: every literal is `\x7b`-free. -/
def wfT (t : Template) : Prop := ∀ seg ∈ t, segWF seg

instance (t : Template) : Decidable (wfT t) := by
  unfold wfT; exact List.decidableBAll _ t

/-- The text of a template. -/
def flattenT : Template → Str
  | [] => []
  | .inl l :: t => l ++ flattenT t
  | .inr i :: t => tok i ++ flattenT t

/-- Replace every slot `i` by the literal `v`. -/
def substT (i : Fin 5) (v : Str) : Template → Template
  | [] => []
  | .inl l :: t => .inl l :: substT i v t
  | .inr j :: t => (if j = i then .inl v else .inr j) :: substT i v t

/-- No slot `i` left in the template. -/
def noSlot (i : Fin 5) (t : Template) : Prop := ∀ seg ∈ t, seg ≠ .inr i

/-! ### Concrete inputs used by instances, witnesses and counterexamples -/

/-- The reply of the C1 spec example. -/
def c1Reply : Str := "PR_COMMENT:main.go:45: ⚠️ **issue**: $$Fix this$$".data

/-- The fragment of the C1 spec example (after the marker). -/
def c1Fragment : Str := "main.go:45: ⚠️ **issue**: $$Fix this$$".data

/-- Expected body of the C1 example comment. -/
def c1ExpectedBody : Str := "⚠️ **issue**:\n\nFix this".data

/-- Path of the C1 example comment. -/
def c1Path : Str := "main.go".data

/-- The category tail of the C1 example. -/
def c1Category : Str := "⚠️ **issue**:".data

/-- The contained text of the C1 example. -/
def c1Contains : Str := "Fix this".data

/-- A reply whose single PR_COMMENT fragment has overlapping first/last
`$$` occurrences (`x$$$`): the Go code slices `block[3:2]` and panics. -/
def c2FailingReply : Str := "PR_COMMENT:x$$$".data

/-- The fragment of the failing C2 reply. -/
def c2FailingFragment : Str := "x$$$".data

/-- The reply of the C3 spec example. -/
def c3Reply : Str := "SUMMARY: $$Hello$$".data

/-- The extracted summary of the C3 example. -/
def c3Hello : Str := "Hello".data

/-- A reply whose PR_COMMENT header carries a negative line number. -/
def c8Reply : Str := "PR_COMMENT:f.go:-5: c: $$x$$".data

/-- The comment the negative-line reply produces. -/
def c8Comment : ReviewComment := ⟨"f.go".data, -5, sideRight, "c:\n\nx".data⟩

/-- Five populated (non-empty) prompt values, the custom prompt itself
containing the literal title token. -/
def c9Data : PromptData :=
  ⟨"t".data, "b".data, "p".data, "d".data, tokTitle⟩

/-- Text the C6 instance's warning must mention. -/
def c6Mentions : Str := "450 lines added".data

/-- Concrete organization/repository names for the C7 configuration. -/
def c7Acme : Str := "acme".data

/-- Concrete repository name for C7. -/
def c7Svc : Str := "svc".data

/-- The wildcard entry of the C7 configuration. -/
def c7WildEntry : RepositoryConfig := ⟨wildcardStar, precisionMedium, "w".data⟩

/-- The exact entry of the C7 configuration. -/
def c7SvcEntry : RepositoryConfig := ⟨c7Svc, "strict".data, "e".data⟩

/-- A legal configuration with two organizations of the same name: the
wildcard sits in the first, the exact match in the second. -/
def c7DupConfig : ReviewConfig :=
  ⟨[⟨c7Acme, [c7WildEntry]⟩, ⟨c7Acme, [c7SvcEntry]⟩]⟩

/-- A single-organization configuration holding both the wildcard and the
exact entry, used by the C7 witness. -/
def c7GoodConfig : ReviewConfig :=
  ⟨[⟨c7Acme, [c7WildEntry, c7SvcEntry]⟩]⟩

/-- The single organization of `c7GoodConfig`. -/
def c7GoodOrg : OrganizationConfig := ⟨c7Acme, [c7WildEntry, c7SvcEntry]⟩

/-- A tiny well-formed template used by the C9 witness. -/
def c9WitnessTemplate : Template :=
  [.inl "Title: ".data, .inr 0, .inl "\nDiff:\n".data, .inr 3, .inl "\n".data,
   .inr 1, .inr 2, .inr 4]

/-- Brace-free prompt data for the C9 witness. -/
def c9WitnessData : PromptData :=
  ⟨"my title".data, "my body".data, "strict guidance".data, "+ diff line".data, []⟩

deriving instance DecidableEq for Except

/-- First header part of the C1 example fragment. -/
def c1P0 : Str := "main.go".data

/-- Second header part of the C1 example fragment. -/
def c1P1 : Str := "45".data

/-- Third header part of the C1 example fragment (`SplitN` keeps the
leading space; the code trims it afterwards). -/
def c1P2 : Str := " ⚠️ **issue**:".data

/-- The comment the C1 example reply produces. -/
def c1Comment : ReviewComment := ⟨c1Path, 45, sideRight, c1ExpectedBody⟩

/-- An action that never triggers a review. -/
def actionClosed : Str := "closed".data

/-- A marker-free reply used by the C10 witness. -/
def c10Plain : Str := "hi there".data

/-- An owner matching no organization of `c7GoodConfig`. -/
def c7Other : Str := "other".data

/-! ## Theorems -/

/-- C5: `shouldTriggerReview` returns false for every action when the PR
is a draft; for non-draft events it returns true exactly for `"opened"`
and `"ready_for_review"`, and false for `"synchronize"` and every other
action. -/
theorem event_filter_spec :
    (∀ action : Str, shouldTriggerReview action true = false) ∧
    shouldTriggerReview actionOpened false = true ∧
    shouldTriggerReview actionReady false = true ∧
    shouldTriggerReview actionSynchronize false = false ∧
    (∀ action : Str, action ≠ actionOpened → action ≠ actionReady →
      shouldTriggerReview action false = false) := by
  refine ⟨fun action => rfl, rfl, rfl, rfl, ?_⟩
  intro action h1 h2
  unfold shouldTriggerReview
  rw [if_neg (by exact Bool.false_ne_true), if_neg h1, if_neg h2]
  split <;> rfl

/-- Witness for C5 at the concrete action `"closed"`. -/
theorem event_filter_spec_witness : shouldTriggerReview actionClosed false = false :=
  event_filter_spec.2.2.2.2 actionClosed (by decide) (by decide)

/-- C4: the size gate is total; the three hard limits are checked in the
fixed order files, additions, total changes, and the first violated one
fixes the skip message regardless of the others; `filesChanged = 26`
with `additions = 10` skips with the files-exceeded message. -/
theorem size_gate_hard_limits :
    (∀ files additions deletions : Int,
      (files > MAX_FILES_FOR_REVIEW →
        checkPRSize files additions deletions = ⟨false, [], filesSkipMessage files⟩) ∧
      (files ≤ MAX_FILES_FOR_REVIEW → additions > MAX_ADDITIONS_FOR_REVIEW →
        checkPRSize files additions deletions = ⟨false, [], additionsSkipMessage additions⟩) ∧
      (files ≤ MAX_FILES_FOR_REVIEW → additions ≤ MAX_ADDITIONS_FOR_REVIEW →
        additions + deletions > MAX_TOTAL_CHANGES →
        checkPRSize files additions deletions =
          ⟨false, [], totalSkipMessage (additions + deletions) additions deletions⟩) ∧
      (files ≤ MAX_FILES_FOR_REVIEW → additions ≤ MAX_ADDITIONS_FOR_REVIEW →
        additions + deletions ≤ MAX_TOTAL_CHANGES →
        (checkPRSize files additions deletions).ShouldReview = true)) ∧
    checkPRSize 26 10 0 = ⟨false, [], filesSkipMessage 26⟩ := by
  refine ⟨?_, rfl⟩
  intro files additions deletions
  refine ⟨?_, ?_, ?_, ?_⟩
  · intro h
    simp only [checkPRSize]
    rw [if_pos h]
  · intro h1 h2
    simp only [checkPRSize]
    rw [if_neg (not_lt.mpr h1), if_pos h2]
  · intro h1 h2 h3
    simp only [checkPRSize]
    rw [if_neg (not_lt.mpr h1), if_neg (not_lt.mpr h2), if_pos h3]
  · intro h1 h2 h3
    simp only [checkPRSize]
    rw [if_neg (not_lt.mpr h1), if_neg (not_lt.mpr h2), if_neg (not_lt.mpr h3)]

/-- Witness for C4, hitting each hard-limit branch and the proceed
branch at concrete stats. -/
theorem size_gate_hard_limits_witness :
    checkPRSize 26 10 0 = ⟨false, [], filesSkipMessage 26⟩ ∧
    checkPRSize 5 900 0 = ⟨false, [], additionsSkipMessage 900⟩ ∧
    checkPRSize 5 700 600 = ⟨false, [], totalSkipMessage (700 + 600) 700 600⟩ ∧
    (checkPRSize 5 10 0).ShouldReview = true :=
  ⟨(size_gate_hard_limits.1 26 10 0).1 (by decide),
   (size_gate_hard_limits.1 5 900 0).2.1 (by decide) (by decide),
   (size_gate_hard_limits.1 5 700 600).2.2.1 (by decide) (by decide) (by decide),
   (size_gate_hard_limits.1 5 10 0).2.2.2 (by decide) (by decide) (by decide)⟩

/-- C6: below every hard limit the two warning thresholds are evaluated
independently and warnings are concatenated files-then-additions into one
prefixed block, the empty string when none triggered; `filesChanged = 10`
with `additions = 450` proceeds with a non-empty warning mentioning the
line count. -/
theorem size_gate_warnings :
    (∀ files additions deletions : Int,
      files ≤ MAX_FILES_FOR_REVIEW → additions ≤ MAX_ADDITIONS_FOR_REVIEW →
      additions + deletions ≤ MAX_TOTAL_CHANGES →
      checkPRSize files additions deletions =
        ⟨true, warningMessageOf
          ((if files > WARN_FILES_THRESHOLD then [filesWarnLine files] else []) ++
           (if additions > WARN_ADDITIONS_THRESHOLD then [additionsWarnLine additions] else [])),
          []⟩ ∧
      (files > WARN_FILES_THRESHOLD → additions > WARN_ADDITIONS_THRESHOLD →
        (checkPRSize files additions deletions).WarningMessage =
          twoWarnBlock (filesWarnLine files) (additionsWarnLine additions)) ∧
      (files > WARN_FILES_THRESHOLD → additions ≤ WARN_ADDITIONS_THRESHOLD →
        (checkPRSize files additions deletions).WarningMessage =
          oneWarnBlock (filesWarnLine files)) ∧
      (files ≤ WARN_FILES_THRESHOLD → additions > WARN_ADDITIONS_THRESHOLD →
        (checkPRSize files additions deletions).WarningMessage =
          oneWarnBlock (additionsWarnLine additions)) ∧
      (files ≤ WARN_FILES_THRESHOLD → additions ≤ WARN_ADDITIONS_THRESHOLD →
        (checkPRSize files additions deletions).WarningMessage = [])) ∧
    (checkPRSize 10 450 0 = ⟨true, oneWarnBlock (additionsWarnLine 450), []⟩ ∧
     (checkPRSize 10 450 0).WarningMessage ≠ [] ∧
     containsStr (checkPRSize 10 450 0).WarningMessage c6Mentions = true) := by
  refine ⟨?_, rfl, by decide, by decide⟩
  intro files additions deletions h1 h2 h3
  have base : checkPRSize files additions deletions =
      ⟨true, warningMessageOf
        ((if files > WARN_FILES_THRESHOLD then [filesWarnLine files] else []) ++
         (if additions > WARN_ADDITIONS_THRESHOLD then [additionsWarnLine additions] else [])),
        []⟩ := by
    simp only [checkPRSize]
    rw [if_neg (not_lt.mpr h1), if_neg (not_lt.mpr h2), if_neg (not_lt.mpr h3)]
  refine ⟨base, ?_, ?_, ?_, ?_⟩
  · intro h4 h5
    rw [base, if_pos h4, if_pos h5]
    rfl
  · intro h4 h5
    rw [base, if_pos h4, if_neg (not_lt.mpr h5)]
    rfl
  · intro h4 h5
    rw [base, if_neg (not_lt.mpr h4), if_pos h5]
    rfl
  · intro h4 h5
    rw [base, if_neg (not_lt.mpr h4), if_neg (not_lt.mpr h5)]
    rfl

/-- Witness for C6, hitting every warning combination at concrete
stats. -/
theorem size_gate_warnings_witness :
    (checkPRSize 22 450 0).WarningMessage =
      twoWarnBlock (filesWarnLine 22) (additionsWarnLine 450) ∧
    (checkPRSize 22 50 0).WarningMessage = oneWarnBlock (filesWarnLine 22) ∧
    (checkPRSize 10 450 0).WarningMessage = oneWarnBlock (additionsWarnLine 450) ∧
    (checkPRSize 10 50 0).WarningMessage = [] :=
  ⟨((size_gate_warnings.1 22 450 0 (by decide) (by decide) (by decide)).2.1
      (by decide) (by decide)),
   ((size_gate_warnings.1 22 50 0 (by decide) (by decide) (by decide)).2.2.1
      (by decide) (by decide)),
   ((size_gate_warnings.1 10 450 0 (by decide) (by decide) (by decide)).2.2.2.1
      (by decide) (by decide)),
   ((size_gate_warnings.1 10 50 0 (by decide) (by decide) (by decide)).2.2.2.2
      (by decide) (by decide))⟩

/-- The entry the first inner loop returns matches the requested name and
belongs to the list. -/
theorem findRepoByName_some :
    ∀ (repos : List RepositoryConfig) (n : Str) (r : RepositoryConfig),
      findRepoByName repos n = some r → r.Name = n ∧ r ∈ repos := by
  intro repos n
  induction repos with
  | nil => intro r h; simp [findRepoByName] at h
  | cons a rest ih =>
    intro r h
    simp only [findRepoByName] at h
    by_cases ha : a.Name = n
    · rw [if_pos ha] at h
      cases h
      exact ⟨ha, List.mem_cons_self a rest⟩
    · rw [if_neg ha] at h
      exact ⟨(ih r h).1, List.mem_cons_of_mem a (ih r h).2⟩

/-- The entry the second inner loop returns is a wildcard entry of the
list. -/
theorem findWildcardRepo_some :
    ∀ (repos : List RepositoryConfig) (r : RepositoryConfig),
      findWildcardRepo repos = some r →
      (r.Name = wildcardStar ∨ r.Name = wildcardDefault) ∧ r ∈ repos := by
  intro repos
  induction repos with
  | nil => intro r h; simp [findWildcardRepo] at h
  | cons a rest ih =>
    intro r h
    simp only [findWildcardRepo] at h
    by_cases ha : a.Name = wildcardStar ∨ a.Name = wildcardDefault
    · rw [if_pos ha] at h
      cases h
      exact ⟨ha, List.mem_cons_self a rest⟩
    · rw [if_neg ha] at h
      exact ⟨(ih r h).1, List.mem_cons_of_mem a (ih r h).2⟩

/-- When no organization name equals the owner the outer loop returns
`none`. -/
theorem getRepoConfigOrgs_no_match :
    ∀ (orgs : List OrganizationConfig) (owner rn : Str),
      (∀ org ∈ orgs, org.Name ≠ owner) →
      getRepoConfigOrgs orgs owner rn = none := by
  intro orgs owner rn
  induction orgs with
  | nil => intro _; rfl
  | cons a rest ih =>
    intro h
    simp only [getRepoConfigOrgs]
    rw [if_neg (h a (List.mem_cons_self a rest))]
    exact ih fun org hm => h org (List.mem_cons_of_mem a hm)

/-- With pairwise-distinct organization names, the outer loop yields
exactly what the unique matching organization yields. -/
theorem getRepoConfigOrgs_of_mem :
    ∀ (orgs : List OrganizationConfig) (owner rn : Str) (org : OrganizationConfig),
      orgs.Pairwise (fun o1 o2 => o1.Name ≠ o2.Name) → org ∈ orgs → org.Name = owner →
      getRepoConfigOrgs orgs owner rn = orgLookup org rn := by
  intro orgs owner rn org hpw hmem heq
  induction orgs with
  | nil => cases hmem
  | cons a rest ih =>
    rw [List.pairwise_cons] at hpw
    rcases List.mem_cons.mp hmem with h | h
    · subst h
      simp only [getRepoConfigOrgs, orgLookup]
      rw [if_pos heq]
      cases hfe : findRepoByName org.Repositories rn with
      | some r => rfl
      | none =>
        cases hfw : findWildcardRepo org.Repositories with
        | some w => rfl
        | none =>
          exact getRepoConfigOrgs_no_match rest owner rn
            fun o hm ho => (hpw.1 o hm) (heq.trans ho.symm)
    · have hne : a.Name ≠ owner := fun hcontra =>
        (hpw.1 org h) (hcontra.trans heq.symm)
      simp only [getRepoConfigOrgs]
      rw [if_neg hne]
      exact ih hpw.2 h

/-- C7 counterexample: a configuration with two organizations both named
`acme`, the wildcard entry in the first and the exact `svc` entry in the
second.  An exact match exists in a matching organization, yet `resolve`
returns the wildcard entry, refuting the claim quantified over every
configuration. -/
theorem repo_config_duplicate_org :
    GetRepositoryConfig c7DupConfig c7Acme c7Svc = some c7WildEntry ∧
    c7WildEntry.Name ≠ c7Svc ∧
    (⟨c7Acme, [c7SvcEntry]⟩ : OrganizationConfig) ∈ c7DupConfig.Organizations ∧
    c7SvcEntry.Name = c7Svc := by
  refine ⟨rfl, by decide, by decide, rfl⟩

/-- C7 (amended): when the organization names of the configuration are
pairwise distinct, resolution within the matching organization prefers
the exact-name entry over a wildcard, falls back to the wildcard, and
yields `none` when neither exists or when no organization matches; the
orchestrator then substitutes the medium-precision default with empty
custom prompt instead of aborting. -/
theorem repo_config_resolution :
    (∀ (cfg : ReviewConfig) (owner repoName : Str),
      cfg.Organizations.Pairwise (fun o1 o2 => o1.Name ≠ o2.Name) →
      ∀ org ∈ cfg.Organizations, org.Name = owner →
        (∀ r, findRepoByName org.Repositories repoName = some r →
          GetRepositoryConfig cfg owner repoName = some r ∧ r.Name = repoName) ∧
        (findRepoByName org.Repositories repoName = none →
          ∀ w, findWildcardRepo org.Repositories = some w →
            GetRepositoryConfig cfg owner repoName = some w ∧
            (w.Name = wildcardStar ∨ w.Name = wildcardDefault)) ∧
        (findRepoByName org.Repositories repoName = none →
          findWildcardRepo org.Repositories = none →
          GetRepositoryConfig cfg owner repoName = none)) ∧
    (∀ (cfg : ReviewConfig) (owner repoName : Str),
      (∀ org ∈ cfg.Organizations, org.Name ≠ owner) →
      GetRepositoryConfig cfg owner repoName = none) ∧
    (∀ (cfg : ReviewConfig) (owner repoName : Str),
      GetRepositoryConfig cfg owner repoName = none →
      effectiveRepoConfig cfg owner repoName = ⟨repoName, precisionMedium, []⟩) := by
  refine ⟨?_, ?_, ?_⟩
  · intro cfg owner repoName hpw org hmem heq
    have hmain := getRepoConfigOrgs_of_mem cfg.Organizations owner repoName org hpw hmem heq
    refine ⟨?_, ?_, ?_⟩
    · intro r hr
      refine ⟨?_, (findRepoByName_some org.Repositories repoName r hr).1⟩
      show getRepoConfigOrgs cfg.Organizations owner repoName = some r
      rw [hmain, orgLookup, hr]
    · intro hnone w hw
      refine ⟨?_, (findWildcardRepo_some org.Repositories w hw).1⟩
      show getRepoConfigOrgs cfg.Organizations owner repoName = some w
      rw [hmain, orgLookup, hnone, hw]
    · intro hnone hwnone
      show getRepoConfigOrgs cfg.Organizations owner repoName = none
      rw [hmain, orgLookup, hnone, hwnone]
  · intro cfg owner repoName h
    exact getRepoConfigOrgs_no_match cfg.Organizations owner repoName h
  · intro cfg owner repoName h
    simp only [effectiveRepoConfig]
    rw [h]

/-- Witness for C7 at a concrete single-organization configuration:
exact match beats the wildcard sitting before it, an unknown owner
resolves to `none`, and the orchestrator's default is substituted. -/
theorem repo_config_resolution_witness :
    (GetRepositoryConfig c7GoodConfig c7Acme c7Svc = some c7SvcEntry ∧
      c7SvcEntry.Name = c7Svc) ∧
    GetRepositoryConfig c7GoodConfig c7Other c7Svc = none ∧
    effectiveRepoConfig c7GoodConfig c7Other c7Svc = ⟨c7Svc, precisionMedium, []⟩ :=
  ⟨((repo_config_resolution.1 c7GoodConfig c7Acme c7Svc (by decide)
      c7GoodOrg (by decide) (by decide)).1 c7SvcEntry (by decide)),
   repo_config_resolution.2.1 c7GoodConfig c7Other c7Svc (by decide),
   repo_config_resolution.2.2 c7GoodConfig c7Other c7Svc
     (repo_config_resolution.2.1 c7GoodConfig c7Other c7Svc (by decide))⟩

/-- A list is a `isPrefixOf`-prefix of itself followed by anything. -/
theorem isPrefixOf_append_self : ∀ (l m : Str), l.isPrefixOf (l ++ m) = true := by
  intro l m
  exact List.isPrefixOf_iff_prefix.mpr (List.prefix_append l m)

/-- `containsStr` false means no occurrence index. -/
theorem strIndex_of_not_contains :
    ∀ (s t : Str), containsStr s t = false → strIndex s t = none := by
  intro s t h
  unfold containsStr at h
  cases hs : strIndex s t with
  | none => rfl
  | some k => rw [hs] at h; cases h

/-- Splitting on a separator that does not occur returns the whole
string as the only piece. -/
theorem splitStrM_no_sep :
    ∀ (sep s : Str), sep ≠ [] → strIndex s sep = none → splitStrM sep s = [s] := by
  intro sep s hne h
  cases sep with
  | nil => exact absurd rfl hne
  | cons c cs => simp [splitStrM, splitStrGo, h]

/-- Section extraction yields the empty string when the marker is
absent. -/
theorem extractSection_no_marker :
    ∀ (text hdr : Str), strIndex text hdr = none → extractSection text hdr = [] := by
  intro text hdr h
  simp [extractSection, h]

/-- C1: a `PR_COMMENT:` fragment whose header (the text before its first
`$$`) splits on `:` into three parts with an integer second part parses
to exactly one comment: the trimmed first part as path, that integer as
line, side `RIGHT`, and the trimmed category tail, a blank line, and the
trimmed text between the fragment's first and last `$$` as body; the
spec's example reply yields one comment on `main.go` line 45 whose body
starts with the category tail and contains `Fix this`. -/
theorem pr_comment_fragment_parse :
    (∀ (block : Str) (s e : Nat) (p0 p1 p2 : Str) (ps : List Str) (n : Int),
      strIndex block dollarDelim = some s →
      strLastIndex block dollarDelim = some e →
      s + 2 ≤ e →
      splitNStr ':' [] 3 (trimSpace (block.take s)) = p0 :: p1 :: p2 :: ps →
      atoi? (trimSpace p1) = some n →
      parsePRCommentBlock block = .ok (some ⟨trimSpace p0, n, sideRight,
        trimSpace p2 ++ bodySep ++ trimSpace ((block.drop (s + 2)).take (e - (s + 2)))⟩)) ∧
    parseClaudeResponse c1Reply = .ok ⟨brandingHeader, [c1Comment]⟩ ∧
    c1Comment.Path = c1P0 ∧ c1Comment.Line = 45 ∧ c1Comment.Side = sideRight ∧
    c1Category.isPrefixOf c1Comment.Body = true ∧
    containsStr c1Comment.Body c1Contains = true := by
  refine ⟨?_, rfl, rfl, rfl, rfl, rfl, rfl⟩
  intro block s e p0 p1 p2 ps n h1 h2 h3 h4 h5
  simp only [parsePRCommentBlock, h1, h2, h4, h5]
  rw [if_neg (by omega : ¬ e ≤ s), if_pos h3]

/-- Witness for C1 at the spec's example fragment. -/
theorem pr_comment_fragment_parse_witness :
    parsePRCommentBlock c1Fragment = .ok (some ⟨trimSpace c1P0, 45, sideRight,
      trimSpace c1P2 ++ bodySep ++ trimSpace ((c1Fragment.drop 28).take (36 - 28))⟩) :=
  pr_comment_fragment_parse.1 c1Fragment 26 36 c1P0 c1P1 c1P2 [] 45
    rfl rfl (by decide) rfl rfl

/-- C3: section extraction returns the trimmed text between the first
`$$` at or after the marker and the next `$$` after it, and the empty
string (not an error) when the marker or either delimiter is absent; the
spec's `SUMMARY: $$Hello$$` reply yields the branded summary containing
`Hello` and no comments. -/
theorem extract_section_spec :
    (∀ (text hdr : Str), strIndex text hdr = none → extractSection text hdr = []) ∧
    (∀ (text hdr : Str) (s : Nat), strIndex text hdr = some s →
      strIndex (text.drop s) dollarDelim = none → extractSection text hdr = []) ∧
    (∀ (text hdr : Str) (s d : Nat), strIndex text hdr = some s →
      strIndex (text.drop s) dollarDelim = some d →
      strIndex (text.drop (d + s + 2)) dollarDelim = none →
      extractSection text hdr = []) ∧
    (∀ (text hdr : Str) (s d e : Nat), strIndex text hdr = some s →
      strIndex (text.drop s) dollarDelim = some d →
      strIndex (text.drop (d + s + 2)) dollarDelim = some e →
      extractSection text hdr = trimSpace ((text.drop (d + s + 2)).take e)) ∧
    (parseClaudeResponse c3Reply = .ok ⟨brandingHeader ++ c3Hello, []⟩ ∧
     containsStr (brandingHeader ++ c3Hello) c3Hello = true) := by
  refine ⟨extractSection_no_marker, ?_, ?_, ?_, rfl, rfl⟩
  · intro text hdr s h1 h2
    simp [extractSection, h1, h2]
  · intro text hdr s d h1 h2 h3
    simp [extractSection, h1, h2, h3]
  · intro text hdr s d e h1 h2 h3
    simp [extractSection, h1, h2, h3]

/-- Witness for C3 at the spec's example reply. -/
theorem extract_section_spec_witness :
    extractSection c3Reply summaryMarker = trimSpace ((c3Reply.drop 11).take 5) :=
  extract_section_spec.2.2.2.1 c3Reply summaryMarker 0 9 5 rfl rfl rfl

/-- C2 (the code bug): the fragment `x$$$` has no two disjoint `$$`
delimiters, so the claim says it contributes zero comments; instead the
first `$$` occurrence is at 1 and the last at 2, the guard
`endDelim <= startDelim` passes, and `block[3:2]` panics, aborting the
whole parse. -/
theorem parse_panics_on_overlapping_delims :
    parsePRCommentBlock c2FailingFragment = .error () ∧
    parseClaudeResponse c2FailingReply = .error () ∧
    strIndex c2FailingFragment dollarDelim = some 1 ∧
    strLastIndex c2FailingFragment dollarDelim = some 2 :=
  ⟨rfl, rfl, rfl, rfl⟩

/-- Every comment a fragment parses to carries side `RIGHT`. -/
theorem parsePRCommentBlock_side :
    ∀ (b : Str) (c : ReviewComment),
      parsePRCommentBlock b = .ok (some c) → c.Side = sideRight := by
  intro b c h
  unfold parsePRCommentBlock at h
  repeat' split at h
  all_goals simp_all
  all_goals rw [← h]

/-- Every comment the collection loop returns carries side `RIGHT`. -/
theorem collectComments_side :
    ∀ (bs : List Str) (l : List ReviewComment),
      collectComments bs = .ok l → ∀ c ∈ l, c.Side = sideRight := by
  intro bs
  induction bs with
  | nil =>
    intro l h c hc
    simp only [collectComments, Except.ok.injEq] at h
    subst h
    cases hc
  | cons b rest ih =>
    intro l h c hc
    cases hpb : parsePRCommentBlock b with
    | error e => simp [collectComments, hpb] at h
    | ok oc =>
      cases oc with
      | none =>
        simp only [collectComments, hpb] at h
        exact ih l h c hc
      | some c0 =>
        simp only [collectComments, hpb] at h
        cases hcr : collectComments rest with
        | error e => simp [hcr] at h
        | ok r =>
          simp only [hcr, Except.ok.injEq] at h
          subst h
          rcases List.mem_cons.mp hc with rfl | hcm
          · exact parsePRCommentBlock_side b c hpb
          · exact ih r hcr c hcm

/-- C8 counterexample: a reply whose comment header carries `-5` parses
successfully to a comment with a non-positive line number, refuting the
positivity half of the claim. -/
theorem comment_negative_line :
    parseClaudeResponse c8Reply = .ok ⟨brandingHeader, [c8Comment]⟩ ∧
    c8Comment.Line = -5 ∧ ¬ 0 < c8Comment.Line :=
  ⟨rfl, rfl, by decide⟩

/-- C8 (amended): every comment of a successfully parsed reply has side
`RIGHT`; the line number is whatever integer `Atoi` read from the
header, which the parser does not check for positivity. -/
theorem comments_side_right :
    ∀ (text : Str) (r : ReviewResult) (c : ReviewComment),
      parseClaudeResponse text = .ok r → c ∈ r.Comments → c.Side = sideRight := by
  intro text r c h hc
  simp only [parseClaudeResponse, List.drop_one] at h
  cases hcc : collectComments ((splitStrM prCommentMarker text).tail) with
  | error e => simp [hcc] at h
  | ok comments =>
    simp only [hcc, Except.ok.injEq] at h
    subst h
    exact collectComments_side _ comments hcc c hc

/-- Witness for C8 at the spec's example reply and its single comment. -/
theorem comments_side_right_witness :
    parseClaudeResponse c1Reply = .ok ⟨brandingHeader, [c1Comment]⟩ ∧
    c1Comment.Side = sideRight :=
  ⟨rfl, comments_side_right c1Reply ⟨brandingHeader, [c1Comment]⟩ c1Comment rfl
    (List.mem_singleton.mpr rfl)⟩

/-- C10 counterexample: on a reply whose only PR_COMMENT fragment has
overlapping `$$` occurrences the parser panics, so no `ReviewResult` is
returned at all and in particular no branded summary; this refutes the
universal quantification over every input text. -/
theorem parse_no_result_on_panic :
    parseClaudeResponse c2FailingReply = .error () ∧
    (parseClaudeResponse c2FailingReply).toOption = none :=
  ⟨rfl, rfl⟩

/-- C10 (amended): whenever the parse does return a result its summary
starts with the literal branding header, and a reply containing none of
the three markers yields exactly the branding header as summary with an
empty comment list; the branding header is non-empty, so a posted
summary is never the empty string. -/
theorem summary_branding :
    (∀ (text : Str) (r : ReviewResult), parseClaudeResponse text = .ok r →
      brandingHeader.isPrefixOf r.Summary = true) ∧
    (∀ text : Str, containsStr text summaryMarker = false →
      containsStr text poemMarker = false →
      containsStr text prCommentMarker = false →
      parseClaudeResponse text = .ok ⟨brandingHeader, []⟩) ∧
    brandingHeader ≠ [] := by
  refine ⟨?_, ?_, by decide⟩
  · intro text r h
    simp only [parseClaudeResponse, List.drop_one] at h
    cases hcc : collectComments ((splitStrM prCommentMarker text).tail) with
    | error e => simp [hcc] at h
    | ok comments =>
      simp only [hcc, Except.ok.injEq] at h
      subst h
      exact isPrefixOf_append_self brandingHeader _
  · intro text h1 h2 h3
    have e1 := extractSection_no_marker text summaryMarker
      (strIndex_of_not_contains text summaryMarker h1)
    have e2 := extractSection_no_marker text poemMarker
      (strIndex_of_not_contains text poemMarker h2)
    have e3 := splitStrM_no_sep prCommentMarker text (by decide)
      (strIndex_of_not_contains text prCommentMarker h3)
    simp [parseClaudeResponse, e1, e2, e3, collectComments]

/-- Witness for C10: the branded summary of the C3 example reply, and the
pure-branding result of a marker-free reply. -/
theorem summary_branding_witness :
    brandingHeader.isPrefixOf (brandingHeader ++ c3Hello) = true ∧
    parseClaudeResponse c10Plain = .ok ⟨brandingHeader, []⟩ :=
  ⟨summary_branding.1 c3Reply ⟨brandingHeader ++ c3Hello, []⟩ rfl,
   summary_branding.2.1 c10Plain (by decide) (by decide) (by decide)⟩

/-- C9 counterexample: all five values populated (non-empty), but the
custom prompt contains the literal title token; since the custom prompt
is substituted last, the result still contains a placeholder token. -/
theorem substitution_token_injection :
    substitutePromptVariables tokCustomPrompt c9Data = tokTitle ∧
    containsStr (substitutePromptVariables tokCustomPrompt c9Data) tokTitle = true ∧
    c9Data.Title ≠ [] ∧ c9Data.Body ≠ [] ∧ c9Data.Precision ≠ [] ∧
    c9Data.Diff ≠ [] ∧ c9Data.CustomPrompt ≠ [] :=
  ⟨rfl, rfl, by decide, by decide, by decide, by decide, by decide⟩

/-- `replaceAllGo` on the empty string. -/
theorem replaceAllGo_nil :
    ∀ (c : Char) (cs v : Str) (fuel : Nat), replaceAllGo c cs v fuel [] = [] := by
  intro c cs v fuel
  cases fuel <;> rfl

/-- An inner mismatch between `t` and `u` forbids `t` being a prefix of
any extension of `u`. -/
theorem tailMismatch_not_prefix :
    ∀ (t u s : Str), tailMismatch t u = true → t.isPrefixOf (u ++ s) = false := by
  intro t u s h
  simp only [tailMismatch, List.any_eq_true, List.mem_range] at h
  obtain ⟨k, hk, hne⟩ := h
  rw [bne_iff_ne] at hne
  have hk1 : k < t.length := lt_of_lt_of_le hk (min_le_left _ _)
  have hk2 : k < u.length := lt_of_lt_of_le hk (min_le_right _ _)
  by_contra hp
  rw [Bool.not_eq_false] at hp
  obtain ⟨r, hr⟩ := List.isPrefixOf_iff_prefix.mp hp
  have h1 := @List.getElem?_append Char t r k
  rw [if_pos hk1] at h1
  have h2 := @List.getElem?_append Char u s k
  rw [if_pos hk2] at h2
  rw [hr] at h1
  exact hne (h1.symm.trans h2)

/-- A pattern starting with a different character is not a prefix. -/
theorem isPrefixOf_cons_false :
    ∀ (c b : Char) (cs rest : Str), b ≠ c →
      (c :: cs).isPrefixOf (b :: rest) = false := by
  intro c b cs rest h
  rw [List.isPrefixOf_cons₂]
  rw [beq_eq_false_iff_ne.mpr fun hEq => h hEq.symm]
  rfl

/-- Scanning a block `w` none of whose non-empty suffixes (extended by
the rest) starts the pattern copies `w` verbatim and spends `w.length`
fuel. -/
theorem replaceAllGo_scan :
    ∀ (c : Char) (cs v w s : Str) (fuel : Nat),
      (∀ u, u ≠ [] → List.IsSuffix u w → (c :: cs).isPrefixOf (u ++ s) = false) →
      w.length + s.length + 1 ≤ fuel →
      replaceAllGo c cs v fuel (w ++ s) =
        w ++ replaceAllGo c cs v (fuel - w.length) s := by
  intro c cs v w
  induction w with
  | nil => intro s fuel h hf; simp
  | cons a w ih =>
    intro s fuel h hf
    simp only [List.length_cons] at hf
    cases fuel with
    | zero => omega
    | succ n =>
      have hpre : (c :: cs).isPrefixOf (a :: (w ++ s)) = false := by
        have := h (a :: w) (by simp) (List.suffix_refl _)
        simpa using this
      simp only [List.cons_append, replaceAllGo, List.append_eq]
      rw [if_neg (by simp [hpre])]
      have hrec := ih s n
        (fun u hne hsuf => h u hne (hsuf.trans (List.suffix_cons a w)))
        (by omega)
      rw [hrec]
      simp only [List.length_cons]
      rw [Nat.succ_sub_succ]

/-- Consuming the pattern itself at the front of the string emits the
replacement and spends one unit of fuel. -/
theorem replaceAllGo_consume :
    ∀ (c : Char) (cs v s : Str) (n : Nat),
      replaceAllGo c cs v (n + 1) ((c :: cs) ++ s) = v ++ replaceAllGo c cs v n s := by
  intro c cs v s n
  simp only [List.cons_append, replaceAllGo, List.append_eq]
  rw [← List.cons_append, if_pos (isPrefixOf_append_self (c :: cs) s), List.drop_left]

/-- Each placeholder token starts with a left brace. -/
theorem tok_head : ∀ i : Fin 5, tok i = '\x7b' :: (tok i).tail := by decide

/-- Each placeholder token is non-empty. -/
theorem tok_ne_nil : ∀ i : Fin 5, tok i ≠ [] := by decide

/-- Each placeholder token contains a left brace. -/
theorem tok_lbrace_mem : ∀ i : Fin 5, '\x7b' ∈ tok i := by decide

/-- No token is a prefix of any extension of any non-empty suffix of a
different token: the disagreement always shows up within the concrete
characters of both. -/
theorem tok_pairs_mismatch :
    ∀ (i j : Fin 5), i ≠ j → ∀ u ∈ (tok j).tails, u ≠ [] →
      tailMismatch (tok i) u = true := by decide

/-- `replaceAllStr` on a token delegates to the fuel worker. -/
theorem replaceAllStr_tok :
    ∀ (i : Fin 5) (v s : Str),
      replaceAllStr (tok i) v s = replaceAllGo '\x7b' (tok i).tail v (s.length + 1) s := by
  intro i v s
  fin_cases i <;> rfl

/-- Substituting a brace-free value into a well-formed template rewrites
exactly the slots of that token. -/
theorem replaceAll_flattenT :
    ∀ (i : Fin 5) (v : Str), noLBrace v →
    ∀ (t : Template) (fuel : Nat), wfT t → (flattenT t).length + 1 ≤ fuel →
      replaceAllGo '\x7b' (tok i).tail v fuel (flattenT t) = flattenT (substT i v t) := by
  intro i v hv t
  induction t with
  | nil =>
    intro fuel _ _
    exact replaceAllGo_nil '\x7b' (tok i).tail v fuel
  | cons seg t ih =>
    intro fuel hwf hfuel
    have hwft : wfT t := fun sg hm => hwf sg (List.mem_cons_of_mem seg hm)
    cases seg with
    | inl l =>
      simp only [flattenT] at hfuel
      have hl : noLBrace l := hwf (.inl l) (List.mem_cons_self _ _)
      have hcond : ∀ u, u ≠ [] → List.IsSuffix u l →
          ('\x7b' :: (tok i).tail).isPrefixOf (u ++ flattenT t) = false := by
        intro u hne hsuf
        cases u with
        | nil => exact absurd rfl hne
        | cons b u2 =>
          have hb : b ∈ l := hsuf.sublist.subset (List.mem_cons_self b u2)
          exact isPrefixOf_cons_false _ _ _ _ (fun hEq => hl (hEq ▸ hb))
      show replaceAllGo '\x7b' (tok i).tail v fuel (l ++ flattenT t) =
        l ++ flattenT (substT i v t)
      have hflen : l.length + (flattenT t).length + 1 ≤ fuel := by
        have : (l ++ flattenT t).length = l.length + (flattenT t).length :=
          List.length_append l (flattenT t)
        omega
      rw [replaceAllGo_scan '\x7b' (tok i).tail v l (flattenT t) fuel hcond hflen]
      congr 1
      exact ih (fuel - l.length) hwft (by omega)
    | inr j =>
      simp only [flattenT] at hfuel
      by_cases hij : j = i
      · subst hij
        show replaceAllGo '\x7b' (tok j).tail v fuel (tok j ++ flattenT t) =
          flattenT (substT j v (.inr j :: t))
        have hsub : flattenT (substT j v (.inr j :: t)) = v ++ flattenT (substT j v t) := by
          simp [substT, flattenT]
        rw [hsub]
        have htoklen : 1 ≤ (tok j).length :=
          List.length_pos.mpr (tok_ne_nil j)
        have hlen : (tok j ++ flattenT t).length =
            (tok j).length + (flattenT t).length := List.length_append _ _
        cases fuel with
        | zero => omega
        | succ n =>
          have hcons := replaceAllGo_consume '\x7b' (tok j).tail v (flattenT t) n
          rw [← tok_head j] at hcons
          rw [hcons]
          congr 1
          exact ih n hwft (by omega)
      · have hcond : ∀ u, u ≠ [] → List.IsSuffix u (tok j) →
            ('\x7b' :: (tok i).tail).isPrefixOf (u ++ flattenT t) = false := by
          intro u hne hsuf
          have hm := tok_pairs_mismatch i j (fun hEq => hij hEq.symm) u
            ((List.mem_tails u (tok j)).mpr hsuf) hne
          have := tailMismatch_not_prefix (tok i) u (flattenT t) hm
          rw [← tok_head i]
          exact this
        show replaceAllGo '\x7b' (tok i).tail v fuel (tok j ++ flattenT t) =
          flattenT (substT i v (.inr j :: t))
        have hsub : flattenT (substT i v (.inr j :: t)) =
            tok j ++ flattenT (substT i v t) := by
          simp [substT, flattenT, hij]
        rw [hsub]
        have hflen : (tok j).length + (flattenT t).length + 1 ≤ fuel := by
          have : (tok j ++ flattenT t).length =
            (tok j).length + (flattenT t).length := List.length_append _ _
          omega
        rw [replaceAllGo_scan '\x7b' (tok i).tail v (tok j) (flattenT t) fuel hcond hflen]
        congr 1
        exact ih (fuel - (tok j).length) hwft (by omega)

/-- Substitution of a brace-free value preserves template
well-formedness. -/
theorem wfT_substT :
    ∀ (i : Fin 5) (v : Str), noLBrace v → ∀ t, wfT t → wfT (substT i v t) := by
  intro i v hv t
  induction t with
  | nil => intro _ sg hm; cases hm
  | cons seg t ih =>
    intro hwf sg hm
    have hwft : wfT t := fun s hs => hwf s (List.mem_cons_of_mem seg hs)
    cases seg with
    | inl l =>
      rcases List.mem_cons.mp hm with rfl | hm2
      · exact hwf (.inl l) (List.mem_cons_self _ _)
      · exact ih hwft sg hm2
    | inr j =>
      rcases List.mem_cons.mp hm with rfl | hm2
      · by_cases hij : j = i
        · rw [if_pos hij]; exact hv
        · rw [if_neg hij]; trivial
      · exact ih hwft sg hm2

/-- After substituting slot `i` no slot `i` remains. -/
theorem noSlot_substT_self :
    ∀ (i : Fin 5) (v : Str) (t : Template), noSlot i (substT i v t) := by
  intro i v t
  induction t with
  | nil => intro sg hm; cases hm
  | cons seg t ih =>
    intro sg hm
    cases seg with
    | inl l =>
      rcases List.mem_cons.mp hm with rfl | hm2
      · simp
      · exact ih sg hm2
    | inr j =>
      rcases List.mem_cons.mp hm with rfl | hm2
      · by_cases hij : j = i
        · rw [if_pos hij]; simp
        · rw [if_neg hij]; simp [hij]
      · exact ih sg hm2

/-- Substitution never introduces a slot. -/
theorem noSlot_substT_preserve :
    ∀ (i j : Fin 5) (v : Str) (t : Template), noSlot j t → noSlot j (substT i v t) := by
  intro i j v t
  induction t with
  | nil => intro _ sg hm; cases hm
  | cons seg t ih =>
    intro h sg hm
    have ht : noSlot j t := fun s hs => h s (List.mem_cons_of_mem seg hs)
    cases seg with
    | inl l =>
      rcases List.mem_cons.mp hm with rfl | hm2
      · simp
      · exact ih ht sg hm2
    | inr k =>
      rcases List.mem_cons.mp hm with rfl | hm2
      · by_cases hik : k = i
        · rw [if_pos hik]; simp
        · rw [if_neg hik]
          exact h (.inr k) (List.mem_cons_self _ _)
      · exact ih ht sg hm2

/-- A fully substituted well-formed template flattens to a brace-free
string. -/
theorem flattenT_noLBrace :
    ∀ t : Template, wfT t → (∀ i : Fin 5, noSlot i t) → noLBrace (flattenT t) := by
  intro t
  induction t with
  | nil => intro _ _; simp [flattenT, noLBrace]
  | cons seg t ih =>
    intro hwf hns
    have hwft : wfT t := fun s hs => hwf s (List.mem_cons_of_mem seg hs)
    have hnst : ∀ i : Fin 5, noSlot i t :=
      fun i s hs => hns i s (List.mem_cons_of_mem seg hs)
    cases seg with
    | inl l =>
      have hl : noLBrace l := hwf (.inl l) (List.mem_cons_self _ _)
      have hrest := ih hwft hnst
      simp only [flattenT, noLBrace, List.mem_append]
      rintro (h | h)
      · exact hl h
      · exact hrest h
    | inr j => exact absurd rfl (hns j (.inr j) (List.mem_cons_self _ _))

/-- Any character of the needle occurs in the haystack whenever an
occurrence index exists. -/
theorem strIndex_mem_of_some :
    ∀ (s p : Str) (k : Nat), strIndex s p = some k → ∀ a ∈ p, a ∈ s := by
  intro s
  induction s with
  | nil =>
    intro p k h a ha
    cases p with
    | nil => cases ha
    | cons c ps => simp [strIndex, List.isPrefixOf] at h
  | cons b rest ih =>
    intro p k h a ha
    simp only [strIndex] at h
    split at h
    · rename_i hpre
      exact ((List.isPrefixOf_iff_prefix.mp hpre).sublist.subset) ha
    · obtain ⟨k0, hk0, _⟩ := Option.map_eq_some'.mp h
      exact List.mem_cons_of_mem b (ih p k0 hk0 a ha)

/-- A brace-free string contains no placeholder token. -/
theorem containsStr_tok_eq_false :
    ∀ (s : Str) (i : Fin 5), noLBrace s → containsStr s (tok i) = false := by
  intro s i h
  unfold containsStr
  cases hs : strIndex s (tok i) with
  | none => rfl
  | some k =>
    exact absurd (strIndex_mem_of_some s (tok i) k hs '\x7b' (tok_lbrace_mem i)) h

/-- C9 (amended): substituting five brace-free values into a template
made of brace-free literal segments and placeholder slots yields a
result containing none of the five literal placeholder tokens. -/
theorem substitution_no_tokens :
    ∀ (t : Template) (d : PromptData),
      wfT t → noLBrace d.Title → noLBrace d.Body → noLBrace d.Precision →
      noLBrace d.Diff → noLBrace d.CustomPrompt →
      ∀ i : Fin 5,
        containsStr (substitutePromptVariables (flattenT t) d) (tok i) = false := by
  intro t d hwf h0 h1 h2 h3 h4 i
  have w1 := wfT_substT 0 d.Title h0 t hwf
  have w2 := wfT_substT 1 d.Body h1 _ w1
  have w3 := wfT_substT 2 d.Precision h2 _ w2
  have w4 := wfT_substT 3 d.Diff h3 _ w3
  have w5 := wfT_substT 4 d.CustomPrompt h4 _ w4
  have q0 : replaceAllStr tokTitle d.Title (flattenT t) =
      flattenT (substT 0 d.Title t) := by
    rw [show tokTitle = tok 0 from rfl, replaceAllStr_tok]
    exact replaceAll_flattenT 0 d.Title h0 t _ hwf (le_refl _)
  have q1 : replaceAllStr tokBody d.Body (flattenT (substT 0 d.Title t)) =
      flattenT (substT 1 d.Body (substT 0 d.Title t)) := by
    rw [show tokBody = tok 1 from rfl, replaceAllStr_tok]
    exact replaceAll_flattenT 1 d.Body h1 _ _ w1 (le_refl _)
  have q2 : replaceAllStr tokPrecision d.Precision
      (flattenT (substT 1 d.Body (substT 0 d.Title t))) =
      flattenT (substT 2 d.Precision (substT 1 d.Body (substT 0 d.Title t))) := by
    rw [show tokPrecision = tok 2 from rfl, replaceAllStr_tok]
    exact replaceAll_flattenT 2 d.Precision h2 _ _ w2 (le_refl _)
  have q3 : replaceAllStr tokDiff d.Diff
      (flattenT (substT 2 d.Precision (substT 1 d.Body (substT 0 d.Title t)))) =
      flattenT (substT 3 d.Diff
        (substT 2 d.Precision (substT 1 d.Body (substT 0 d.Title t)))) := by
    rw [show tokDiff = tok 3 from rfl, replaceAllStr_tok]
    exact replaceAll_flattenT 3 d.Diff h3 _ _ w3 (le_refl _)
  have q4 : replaceAllStr tokCustomPrompt d.CustomPrompt
      (flattenT (substT 3 d.Diff
        (substT 2 d.Precision (substT 1 d.Body (substT 0 d.Title t))))) =
      flattenT (substT 4 d.CustomPrompt (substT 3 d.Diff
        (substT 2 d.Precision (substT 1 d.Body (substT 0 d.Title t))))) := by
    rw [show tokCustomPrompt = tok 4 from rfl, replaceAllStr_tok]
    exact replaceAll_flattenT 4 d.CustomPrompt h4 _ _ w4 (le_refl _)
  have hfinal : substitutePromptVariables (flattenT t) d =
      flattenT (substT 4 d.CustomPrompt (substT 3 d.Diff
        (substT 2 d.Precision (substT 1 d.Body (substT 0 d.Title t))))) := by
    unfold substitutePromptVariables
    rw [q0, q1, q2, q3, q4]
  rw [hfinal]
  apply containsStr_tok_eq_false
  apply flattenT_noLBrace _ w5
  intro j
  fin_cases j
  · exact noSlot_substT_preserve 4 0 _ _ (noSlot_substT_preserve 3 0 _ _
      (noSlot_substT_preserve 2 0 _ _ (noSlot_substT_preserve 1 0 _ _
        (noSlot_substT_self 0 d.Title t))))
  · exact noSlot_substT_preserve 4 1 _ _ (noSlot_substT_preserve 3 1 _ _
      (noSlot_substT_preserve 2 1 _ _ (noSlot_substT_self 1 d.Body _)))
  · exact noSlot_substT_preserve 4 2 _ _ (noSlot_substT_preserve 3 2 _ _
      (noSlot_substT_self 2 d.Precision _))
  · exact noSlot_substT_preserve 4 3 _ _ (noSlot_substT_self 3 d.Diff _)
  · exact noSlot_substT_self 4 d.CustomPrompt _

/-- Witness for C9 at a concrete well-formed template and brace-free
data: no token survives the substitution. -/
theorem substitution_no_tokens_witness :
    containsStr (substitutePromptVariables (flattenT c9WitnessTemplate) c9WitnessData)
      (tok 0) = false :=
  substitution_no_tokens c9WitnessTemplate c9WitnessData (by decide) (by decide)
    (by decide) (by decide) (by decide) (by decide) 0
